import Mathlib

/-!
Verification development for the pex lock-file codec
(`pex/resolve/lockfile/json_codec.py`) and the local-project
fingerprinter (`pex/pip/local_project.py`).

The JSON documents handled by the codec are modelled as a structured
`JsonValue` (the output of Python's `json.loads`); text-level JSON
syntax is out of scope.  Machinery that the codec imports from modules
not shown in the repository (path mappings, the requirement / version /
specifier grammars, the enum vocabularies, `SortedTuple`) is modelled
from the specification, as marked on each definition.
-/

/-- A structured JSON value, as produced by Python's `json.loads`:
`null`, booleans, numbers, strings, arrays and objects.  Objects are
association lists with distinct keys (Python `dict`s). -/
inductive JsonValue where
  | null : JsonValue
  | bool (b : Bool) : JsonValue
  | num (n : Int) : JsonValue
  | str (s : String) : JsonValue
  | arr (items : List JsonValue) : JsonValue
  | obj (fields : List (String × JsonValue)) : JsonValue

/-- Python's `type(value).__name__` for a JSON-decoded value. -/
def jsonTypeName : JsonValue → String
  | .null => "NoneType"
  | .bool _ => "bool"
  | .num _ => "int"
  | .str _ => "str"
  | .arr _ => "list"
  | .obj _ => "dict"

/-- Python truthiness of a JSON-decoded value (`bool(value)`). -/
def truthy : JsonValue → Bool
  | .null => false
  | .bool b => b
  | .num n => n != 0
  | .str s => s != ""
  | .arr items => !items.isEmpty
  | .obj fields => !fields.isEmpty

/-- Key lookup in a JSON object's field list (`data[key]` / `key in data`). -/
def jlookup : List (String × JsonValue) → String → Option JsonValue
  | [], _ => none
  | (k, v) :: rest, key => if k = key then some v else jlookup rest key

/-- Python iteration over a JSON-decoded value: a list yields its
items, a string its characters (each a 1-character string), a dict its
keys.  Other values are not iterable (iterating them raises `TypeError`
in Python; no code path settled here reaches that case). -/
def jsonItems : JsonValue → List JsonValue
  | .arr items => items
  | .str s => s.data.map fun c => .str (String.mk [c])
  | .obj fields => fields.map fun kv => .str kv.1
  | _ => []

/-- Extract the string payload of a value already checked to be a `str`.
The fallback is unreachable after a `get` with expected type `str`. -/
def jstr : JsonValue → String
  | .str s => s
  | _ => ""

/-- Extract the boolean payload of a value already checked to be a `bool`.
The fallback is unreachable after a `get` with expected type `bool`. -/
def jbool : JsonValue → Bool
  | .bool b => b
  | _ => false

/-- Convert the raw value of the optional `use_pep517` key to the model
field.  Python stores the raw value unchecked (optional keys are not
type-checked, see `get`); a present value that is neither `null` nor a
boolean would be stored as-is by the Python code, which this typed model
cannot represent -- no settled claim depends on that case. -/
def jsonToOptBool : JsonValue → Option Bool
  | .bool b => some b
  | _ => none

/-- Convert the raw `requires_python` list to the model field.  Python
stores the raw list unchecked; entries that are not strings would be
stored as-is by the Python code, which this typed model cannot
represent -- no settled claim depends on that case. -/
def jsonToStrList : JsonValue → List String
  | .arr items =>
    items.filterMap fun v => match v with
      | .str s => some s
      | _ => none
  | _ => []

/-- The expected types passed to the typed accessor `get`
(`compatibility.string`, `dict`, `list`, `bool`). -/
inductive JsonTy where
  | str | dict | list | bool
deriving DecidableEq

/-- The `__name__` rendering of an expected type used in `get`'s
type-mismatch message. -/
def tyName : JsonTy → String
  | .str => "str"
  | .dict => "dict"
  | .list => "list"
  | .bool => "bool"

/-- `isinstance(value, expected_type)` for the types `get` is called with. -/
def isinstanceOf : JsonValue → JsonTy → Bool
  | .str _, .str => true
  | .obj _, .dict => true
  | .arr _, .list => true
  | .bool _, .bool => true
  | _, _ => false

/-! ## Path mappings (`pex/resolve/path_mappings.py`, not in the shown
source; modelled from the specification) -/

/-- Modelled from the spec: `PathMapping` declares a symbolic
placeholder (`name`), an optional concrete path (`destination`) and a
human-readable `description`. -/
structure PathMapping where
  name : String
  destination : Option String
  description : String
deriving DecidableEq

/-- Modelled from the spec: a set of named path mappings. -/
structure PathMappings where
  mappings : List PathMapping
deriving DecidableEq

/-- Replace every non-overlapping occurrence of `pat` (nonempty) in a
character list by `rep`, left to right (Python `str.replace`).  The
fuel argument (at least the list length at every call) keeps the
recursion structural: a matched occurrence consumes at least one
character, an unmatched head exactly one. -/
def replaceFrom (pat rep : List Char) : Nat → List Char → List Char
  | _, [] => []
  | 0, l => l
  | fuel + 1, c :: rest =>
    if pat ≠ [] ∧ pat.isPrefixOf (c :: rest) then
      rep ++ replaceFrom pat rep fuel ((c :: rest).drop pat.length)
    else
      c :: replaceFrom pat rep fuel rest

/-- Python `text.replace(pat, rep)` (for nonempty `pat`). -/
def strReplace (text pat rep : String) : String :=
  String.mk (replaceFrom pat.data rep.data text.data.length text.data)

/-- Modelled from the spec: `maybe_reify` substitutes each mapping's
concrete destination path for its `$\x7bname\x7d` placeholder; mappings
without a destination are left alone (the codec rejects those upstream). -/
def maybe_reify (pm : PathMappings) (text : String) : String :=
  pm.mappings.foldl
    (fun acc m =>
      match m.destination with
      | some d => strReplace acc ("$\x7b" ++ m.name ++ "\x7d") d
      | none => acc)
    text

/-- Modelled from the spec: `maybe_canonicalize` is the inverse
transform, replacing each mapping's concrete destination path by its
`$\x7bname\x7d` placeholder. -/
def maybe_canonicalize (pm : PathMappings) (text : String) : String :=
  pm.mappings.foldl
    (fun acc m =>
      match m.destination with
      | some d => strReplace acc d ("$\x7b" ++ m.name ++ "\x7d")
      | none => acc)
    text

/-- The set of symbolic names the caller supplied
(`set(mapping.name for mapping in path_mappings.mappings)`). -/
def givenNames (pm : PathMappings) : List String :=
  pm.mappings.map PathMapping.name

/-! ## Value model (`pex/resolve/locked_resolve.py`,
`pex/resolve/lockfile/model.py`, `pex/resolve/resolved_requirement.py`,
enum modules -- not in the shown source; modelled from the specification) -/

/-- Modelled from the spec: `LockStyle`, a closed enum vocabulary
(values follow the upstream tool). -/
inductive LockStyle where
  | strict | sources | universal
deriving DecidableEq

/-- The canonical textual form of a `LockStyle` value (`str(value)`). -/
def LockStyle.toStr : LockStyle → String
  | .strict => "strict"
  | .sources => "sources"
  | .universal => "universal"

/-- `LockStyle.for_value`: resolve a raw JSON value against the closed
vocabulary; anything else raises `ValueError` (here `none`). -/
def LockStyle.forValue : JsonValue → Option LockStyle
  | .str "strict" => some .strict
  | .str "sources" => some .sources
  | .str "universal" => some .universal
  | _ => none

/-- Modelled from the spec: `TargetSystem`, a closed enum vocabulary. -/
inductive TargetSystem where
  | linux | mac | windows
deriving DecidableEq

/-- The canonical textual form of a `TargetSystem` value. -/
def TargetSystem.toStr : TargetSystem → String
  | .linux => "linux"
  | .mac => "mac"
  | .windows => "windows"

/-- `TargetSystem.for_value`. -/
def TargetSystem.forValue : JsonValue → Option TargetSystem
  | .str "linux" => some .linux
  | .str "mac" => some .mac
  | .str "windows" => some .windows
  | _ => none

/-- Modelled from the spec: `ResolverVersion`, a closed enum vocabulary. -/
inductive ResolverVersion where
  | pipLegacy | pip2020
deriving DecidableEq

/-- The canonical textual form of a `ResolverVersion` value. -/
def ResolverVersion.toStr : ResolverVersion → String
  | .pipLegacy => "pip-legacy-resolver"
  | .pip2020 => "pip-2020-resolver"

/-- `ResolverVersion.for_value`. -/
def ResolverVersion.forValue : JsonValue → Option ResolverVersion
  | .str "pip-legacy-resolver" => some .pipLegacy
  | .str "pip-2020-resolver" => some .pip2020
  | _ => none

/-- Modelled from the spec: `PipVersion`, a closed enum vocabulary with
a fixed tool default. -/
inductive PipVersion where
  | v20 | v22
deriving DecidableEq

/-- The canonical textual form of a `PipVersion` value. -/
def PipVersion.toStr : PipVersion → String
  | .v20 => "20.3.4-patched"
  | .v22 => "22.2.2"

/-- `PipVersion.for_value`. -/
def PipVersion.forValue : JsonValue → Option PipVersion
  | .str "20.3.4-patched" => some .v20
  | .str "22.2.2" => some .v22
  | _ => none

/-- `_DEFAULT_PIP_CONFIGURATION.version`: the fixed default pip version
substituted for a missing or empty `pip_version` field. -/
def defaultPipVersion : PipVersion := .v20

/-- Modelled from the spec: the requirement-string grammar is an opaque
parsing capability; a requirement value wraps its (reified) text. -/
structure Requirement where
  raw : String
deriving DecidableEq

/-- Modelled from the spec: `Requirement.parse` -- the injected grammar
accepts a nonempty requirement string and fails
(`RequirementParseError`) otherwise. -/
def Requirement.parse (s : String) : Option Requirement :=
  if s = "" then none else some ⟨s⟩

/-- Modelled from the spec: a version specifier set wraps its text
(`SpecifierSet`); `str` returns the text, and a specifier set is falsy
exactly when it contains no specifiers (empty text). -/
structure SpecifierSet where
  raw : String
deriving DecidableEq

/-- Modelled from the spec: `ProjectName` (PEP 503) wraps the project
name string; construction is total. -/
structure ProjectName where
  raw : String
deriving DecidableEq

/-- Modelled from the spec: `Version` (PEP 440) wraps the version
string; construction is total. -/
structure Version where
  raw : String
deriving DecidableEq

/-- Modelled from the spec: a `packaging.tags.Tag` with interpreter,
abi and platform components. -/
structure Tag where
  interpreter : String
  abi : String
  platform : String
deriving DecidableEq

/-- `Fingerprint`: content identity of one artifact. -/
structure Fingerprint where
  algorithm : String
  hash : String
deriving DecidableEq

/-- `Artifact`: one concrete locatable file for a locked requirement. -/
structure Artifact where
  url : String
  fingerprint : Fingerprint
deriving DecidableEq

/-- `Artifact.from_url` (modelled from the spec: constructs the
artifact from its url and fingerprint). -/
def Artifact.from_url (url : String) (fingerprint : Fingerprint) : Artifact :=
  ⟨url, fingerprint⟩

/-- `Pin`: the resolved identity of a package at one version. -/
structure Pin where
  project_name : ProjectName
  version : Version
deriving DecidableEq

/-- `LockedRequirement`: one fully-resolved dependency.  The primary
`artifact` plus `additional_artifacts` make the artifact list, which is
therefore never empty. -/
structure LockedRequirement where
  pin : Pin
  requires_python : Option SpecifierSet
  requires_dists : List Requirement
  artifact : Artifact
  additional_artifacts : List Artifact
deriving DecidableEq

/-- `LockedRequirement.create` (modelled from the spec: plain
construction of the immutable record). -/
def LockedRequirement.create (pin : Pin) (requires_python : Option SpecifierSet)
    (requires_dists : List Requirement) (artifact : Artifact)
    (additional_artifacts : List Artifact) : LockedRequirement :=
  ⟨pin, requires_python, requires_dists, artifact, additional_artifacts⟩

/-- `req.iter_artifacts()`: the primary artifact followed by the
additional ones. -/
def LockedRequirement.iter_artifacts (r : LockedRequirement) : List Artifact :=
  r.artifact :: r.additional_artifacts

/-- Character-list comparison used for the total order on pins
(lexicographic). -/
def charListLeB : List Char → List Char → Bool
  | [], _ => true
  | _ :: _, [] => false
  | a :: as, b :: bs => if a = b then charListLeB as bs else decide (a < b)

/-- The total order on `LockedRequirement` by pin (modelled from the
spec: `locked_requirements` is "ordered by a total order (by pin)"). -/
def lrLeB (a b : LockedRequirement) : Bool :=
  if a.pin.project_name.raw = b.pin.project_name.raw then
    charListLeB a.pin.version.raw.data b.pin.version.raw.data
  else
    charListLeB a.pin.project_name.raw.data b.pin.project_name.raw.data

/-- Ordered insertion for the `SortedTuple` model. -/
def insertLR (x : LockedRequirement) : List LockedRequirement → List LockedRequirement
  | [] => [x]
  | y :: ys => if lrLeB x y then x :: y :: ys else y :: insertLR x ys

/-- Modelled from the spec: `SortedTuple` sorts its input by the total
order on pins (stable insertion sort). -/
def sortLR : List LockedRequirement → List LockedRequirement
  | [] => []
  | x :: xs => insertLR x (sortLR xs)

/-- Adjacent-pairs sortedness for the pin order. -/
def sortedB : List LockedRequirement → Bool
  | [] => true
  | [_] => true
  | a :: b :: rest => lrLeB a b && sortedB (b :: rest)

/-- `LockedResolve`: the resolution for one target environment. -/
structure LockedResolve where
  locked_requirements : List LockedRequirement
  platform_tag : Option Tag
deriving DecidableEq

/-- `Lockfile`: the top-level aggregate.  The `source` attribute is
provenance only (never serialized and excluded from value equality in
the upstream model), so it is not part of the value model here. -/
structure Lockfile where
  pex_version : String
  style : LockStyle
  requires_python : List String
  target_systems : List TargetSystem
  pip_version : PipVersion
  resolver_version : ResolverVersion
  requirements : List Requirement
  constraints : List Requirement
  allow_prereleases : Bool
  allow_wheels : Bool
  allow_builds : Bool
  prefer_older_binary : Bool
  use_pep517 : Option Bool
  build_isolation : Bool
  transitive : Bool
  locked_resolves : List LockedResolve
deriving DecidableEq

/-- `Lockfile.create` (modelled from the spec: plain construction of
the immutable record; the `source` argument is provenance only). -/
def Lockfile.create (pex_version : String) (style : LockStyle)
    (requires_python : List String) (target_systems : List TargetSystem)
    (pip_version : PipVersion) (resolver_version : ResolverVersion)
    (requirements constraints : List Requirement)
    (allow_prereleases allow_wheels allow_builds prefer_older_binary : Bool)
    (use_pep517 : Option Bool) (build_isolation transitive : Bool)
    (locked_resolves : List LockedResolve) : Lockfile :=
  ⟨pex_version, style, requires_python, target_systems, pip_version,
   resolver_version, requirements, constraints, allow_prereleases,
   allow_wheels, allow_builds, prefer_older_binary, use_pep517,
   build_isolation, transitive, locked_resolves⟩

/-! ## Error taxonomy (`json_codec.py` lines 52-61 and the raise sites
of `loads`).  Each constructor is one raise site and carries exactly
the data its Python message embeds. -/

/-- `ParseError` and its raise sites.  `pathMappingError` models the
`PathMappingError` subclass (an attrs class carrying the full declared
mapping value and the unsatisfied names). -/
inductive ParseError where
  /-- line 98: `'{path}'` is not a JSON object; embeds path, key,
  source, the actual type name and the actual value. -/
  | notAnObject (path key source : String) (actualType : String) (value : JsonValue)
  /-- line 111: the object at `'{path}'` lacks the required `key`. -/
  | missingKey (path source key : String)
  /-- line 117: `'{path}["{key}"]'` has the wrong type; embeds path,
  key, source, the expected type, the actual type and the value. -/
  | typeMismatch (path key source expectedType actualType : String) (value : JsonValue)
  /-- line 143: an enum-valued field does not match its closed
  vocabulary; embeds the path (and the offending value via the
  underlying `ValueError`). -/
  | invalidEnum (path : String) (value : JsonValue)
  /-- line 167: a requirement string failed the requirement grammar. -/
  | invalidRequirement (path : String) (value : JsonValue)
  /-- line 179: a version specifier failed the specifier grammar. -/
  | invalidSpecifier (path : String) (value : JsonValue)
  /-- line 216: a platform tag without exactly 3 string components;
  embeds the path, the component count, the component type names and
  the components. -/
  | invalidTag (path : String) (count : Nat) (types : List String) (components : List JsonValue)
  /-- line 261: a locked requirement with an empty artifact list;
  embeds the requirement's path and the source. -/
  | noArtifacts (path source : String)
  /-- lines 56-61 and 187: `PathMappingError`, carrying the declared
  `path_mappings` value and the unspecified names. -/
  | pathMappingError (required : JsonValue) (unspecified : List String)

/-- `PathMappingError` is a distinguishable specialization of
`ParseError` (`class PathMappingError(ParseError)`). -/
def ParseError.isPathMappingError : ParseError → Bool
  | .pathMappingError _ _ => true
  | _ => false

/-! ## The codec, deserialization (`json_codec.py` lines 81-319).
`loads` takes the already-decoded JSON document (`_load_json` output);
text-level JSON syntax errors are out of scope. -/

/-- The typed accessor (`json_codec.py` lines 88-132): fetch `key` from
`data`, requiring `data` to be a JSON object and -- for non-optional
keys only -- the value to have the expected type.  A missing optional
key yields `null` (Python `None`); an optional key that is present is
returned without any type check (`if not optional and not
isinstance(...)`). -/
def get (key : String) (expected : JsonTy) (data : JsonValue)
    (path source : String) (optional : Bool) : Except ParseError JsonValue :=
  match data with
  | .obj fields =>
    match jlookup fields key with
    | none =>
      if optional then .ok .null
      else .error (.missingKey path source key)
    | some value =>
      if !optional && !isinstanceOf value expected then
        .error (.typeMismatch path key source (tyName expected) (jsonTypeName value) value)
      else .ok value
  | d => .error (.notAnObject path key source (jsonTypeName d) d)

/-- `parse_enum_value` (lines 134-143), generic over the enum's
`for_value` lookup. -/
def parse_enum_value {α : Type} (forValue : JsonValue → Option α)
    (value : JsonValue) (path : String) : Except ParseError α :=
  match forValue value with
  | some v => .ok v
  | none => .error (.invalidEnum path value)

/-- `get_enum_value` (lines 145-157): fetch the field (optional exactly
when a default is supplied), substitute the default for a falsy value,
and resolve against the vocabulary.  Only called with `path="."`. -/
def get_enum_value {α : Type} (forValue : JsonValue → Option α) (key : String)
    (default : Option α) (data : JsonValue) (source : String) : Except ParseError α := do
  let value ← get key .str data "." source default.isSome
  match default, truthy value with
  | some d, false => pure d
  | _, _ => parse_enum_value forValue value ("." ++ "[\"" ++ key ++ "\"]")

/-- `parse_requirement` (lines 159-169): reify path placeholders, then
run the requirement grammar; grammar failures become path-qualified
errors.  A non-string entry fails the grammar. -/
def parse_requirement (pm : PathMappings) (v : JsonValue) (path : String) :
    Except ParseError Requirement :=
  match v with
  | .str s =>
    match Requirement.parse (maybe_reify pm s) with
    | some r => .ok r
    | none => .error (.invalidRequirement path v)
  | _ => .error (.invalidRequirement path v)

/-- `parse_version_specifier` (lines 171-181): run the specifier
grammar (no reification); a non-string fails the grammar. -/
def parse_version_specifier (v : JsonValue) (path : String) :
    Except ParseError SpecifierSet :=
  match v with
  | .str s => .ok ⟨s⟩
  | _ => .error (.invalidSpecifier path v)

/-- `assemble_tag` (lines 210-225): exactly 3 string components make a
`Tag`; anything else is a `ParseError` carrying the count, the
component type names, and the components. -/
def assemble_tag (components : List JsonValue) (path : String) : Except ParseError Tag :=
  match components with
  | [.str a, .str b, .str c] => .ok ⟨a, b, c⟩
  | cs => .error (.invalidTag path cs.length (cs.map jsonTypeName) cs)

/-- Index-carrying effectful map for the `enumerate(...)` loops. -/
def mapIdxM {α : Type} (f : Nat → JsonValue → Except ParseError α) :
    Nat → List JsonValue → Except ParseError (List α)
  | _, [] => .ok []
  | i, x :: xs => do
    let a ← f i x
    let rest ← mapIdxM f (i + 1) xs
    pure (a :: rest)

/-- The names declared by the document's `path_mappings` value
(`set(required_path_mappings)`): a dict yields its keys; a string its
characters; a falsy value (after `or {}`) yields nothing. -/
def requiredPathNames : JsonValue → List String
  | .obj fields => fields.map Prod.fst
  | .str s => s.data.map fun c => String.mk [c]
  | _ => []

/-- Lines 183-189: diff the declared `path_mappings` against the
caller-supplied names; any unsatisfied name raises `PathMappingError`.
This runs before any locked content is interpreted. -/
def checkPathMappings (doc : JsonValue) (pm : PathMappings) (source : String) :
    Except ParseError Unit := do
  let required ← get "path_mappings" .dict doc "." source true
  let unspecified := (requiredPathNames required).filter fun n => !(givenNames pm).contains n
  if unspecified.isEmpty then pure ()
  else .error (.pathMappingError required unspecified)

/-- Lines 191-198: parse `target_systems` (optional; falsy means none). -/
def parseTargetSystems (doc : JsonValue) (source : String) :
    Except ParseError (List TargetSystem) := do
  let raw ← get "target_systems" .list doc "." source true
  let items := if truthy raw then jsonItems raw else []
  mapIdxM
    (fun i v =>
      parse_enum_value TargetSystem.forValue v (".target_systems[" ++ toString i ++ "]"))
    0 items

/-- Lines 200-208: parse the required `requirements` / `constraints`
lists through the requirement grammar. -/
def parseReqList (doc : JsonValue) (key : String) (source : String) (pm : PathMappings) :
    Except ParseError (List Requirement) := do
  let raw ← get key .list doc "." source false
  mapIdxM
    (fun i v => parse_requirement pm v ("." ++ key ++ "[" ++ toString i ++ "]"))
    0 (jsonItems raw)

/-- Lines 247-258: build one requirement's artifact list (urls reified,
fingerprint fields required). -/
def parseArtifacts (pm : PathMappings) (req : JsonValue) (req_path source : String) :
    Except ParseError (List Artifact) := do
  let raw ← get "artifacts" .list req req_path source false
  mapIdxM
    (fun i a => do
      let ap := req_path ++ "[\"artifacts\"][" ++ toString i ++ "]"
      let url ← get "url" .str a ap source false
      let algorithm ← get "algorithm" .str a ap source false
      let hashValue ← get "hash" .str a ap source false
      pure (Artifact.from_url (maybe_reify pm (jstr url)) ⟨jstr algorithm, jstr hashValue⟩))
    0 (jsonItems raw)

/-- Lines 247-293: parse one locked requirement.  The artifact list is
built first and an empty list is rejected (line 260); then
`requires_python`, the pin, and `requires_dists`, in Python's argument
evaluation order. -/
def parseLockedRequirement (pm : PathMappings) (req : JsonValue) (req_path source : String) :
    Except ParseError LockedRequirement := do
  let artifacts ← parseArtifacts pm req req_path source
  match artifacts with
  | [] => .error (.noArtifacts req_path source)
  | primary :: additional => do
    let rawSpecifier ← get "requires_python" .str req req_path source true
    let requires_python ←
      if truthy rawSpecifier then do
        let s ← parse_version_specifier rawSpecifier (req_path ++ "[\"requires_python\"]")
        pure (some s)
      else pure none
    let project_name ← get "project_name" .str req req_path source false
    let version ← get "version" .str req req_path source false
    let rawDists ← get "requires_dists" .list req req_path source false
    let requires_dists ←
      mapIdxM
        (fun i v =>
          parse_requirement pm v (req_path ++ "[\"requires_dists\"][" ++ toString i ++ "]"))
        0 (jsonItems rawDists)
    pure (LockedRequirement.create ⟨⟨jstr project_name⟩, ⟨jstr version⟩⟩
      requires_python requires_dists primary additional)

/-- Lines 228-297: parse one locked resolve: the optional platform tag
(falsy -- `null` or `[]` -- means absent), then the locked requirements,
collected into the sorted tuple. -/
def parseLockedResolve (pm : PathMappings) (lr : JsonValue) (lock_path source : String) :
    Except ParseError LockedResolve := do
  let components ← get "platform_tag" .list lr lock_path source true
  let platform_tag ←
    if truthy components then do
      let t ← assemble_tag (jsonItems components) (lock_path ++ "[\"platform_tag\"]")
      pure (some t)
    else pure none
  let rawReqs ← get "locked_requirements" .list lr lock_path source false
  let reqs ←
    mapIdxM
      (fun j r => parseLockedRequirement pm r (lock_path ++ "[" ++ toString j ++ "]") source)
      0 (jsonItems rawReqs)
  pure ⟨sortLR reqs, platform_tag⟩

/-- `loads` (lines 81-319) on the decoded document, mirroring the
Python evaluation order: the path-mapping diff, `target_systems`,
`requirements`, `constraints`, the `locked_resolves` loop, then the
remaining top-level fields in `Lockfile.create` argument order. -/
def loads (doc : JsonValue) (source : String := "<string>")
    (path_mappings : PathMappings := ⟨[]⟩) : Except ParseError Lockfile := do
  checkPathMappings doc path_mappings source
  let target_systems ← parseTargetSystems doc source
  let requirements ← parseReqList doc "requirements" source path_mappings
  let constraints ← parseReqList doc "constraints" source path_mappings
  let rawResolves ← get "locked_resolves" .list doc "." source false
  let locked_resolves ←
    mapIdxM
      (fun i lr =>
        parseLockedResolve path_mappings lr (".locked_resolves[" ++ toString i ++ "]") source)
      0 (jsonItems rawResolves)
  let pex_version ← get "pex_version" .str doc "." source false
  let style ← get_enum_value LockStyle.forValue "style" none doc source
  let requires_python ← get "requires_python" .list doc "." source false
  let pip_version ← get_enum_value PipVersion.forValue "pip_version" (some defaultPipVersion) doc source
  let resolver_version ← get_enum_value ResolverVersion.forValue "resolver_version" none doc source
  let allow_prereleases ← get "allow_prereleases" .bool doc "." source false
  let allow_wheels ← get "allow_wheels" .bool doc "." source false
  let allow_builds ← get "allow_builds" .bool doc "." source false
  let prefer_older_binary ← get "prefer_older_binary" .bool doc "." source false
  let use_pep517 ← get "use_pep517" .bool doc "." source true
  let build_isolation ← get "build_isolation" .bool doc "." source false
  let transitive ← get "transitive" .bool doc "." source false
  pure (Lockfile.create (jstr pex_version) style (jsonToStrList requires_python)
    target_systems pip_version resolver_version requirements constraints
    (jbool allow_prereleases) (jbool allow_wheels) (jbool allow_builds)
    (jbool prefer_older_binary) (jsonToOptBool use_pep517) (jbool build_isolation)
    (jbool transitive) locked_resolves)

/-! ## The codec, serialization (`json_codec.py` lines 336-396) -/

/-- One serialized artifact (lines 379-386): the url canonicalized, the
fingerprint fields verbatim. -/
def serializeArtifact (pm : PathMappings) (a : Artifact) : JsonValue :=
  .obj [("url", .str (maybe_canonicalize pm a.url)),
        ("algorithm", .str a.fingerprint.algorithm),
        ("hash", .str a.fingerprint.hash)]

/-- One serialized locked requirement (lines 368-387):
`requires_dists` canonicalized, `requires_python` stringified when
truthy (a falsy -- empty -- specifier set serializes as `null`). -/
def serializeLockedRequirement (pm : PathMappings) (r : LockedRequirement) : JsonValue :=
  .obj [("project_name", .str r.pin.project_name.raw),
        ("version", .str r.pin.version.raw),
        ("requires_dists",
          .arr (r.requires_dists.map fun d => .str (maybe_canonicalize pm d.raw))),
        ("requires_python",
          match r.requires_python with
          | some s => if s.raw = "" then .null else .str s.raw
          | none => .null),
        ("artifacts", .arr (r.iter_artifacts.map (serializeArtifact pm)))]

/-- One serialized locked resolve (lines 359-391). -/
def serializeLockedResolve (pm : PathMappings) (lr : LockedResolve) : JsonValue :=
  .obj [("platform_tag",
          match lr.platform_tag with
          | some t => .arr [.str t.interpreter, .str t.abi, .str t.platform]
          | none => .null),
        ("locked_requirements",
          .arr (lr.locked_requirements.map (serializeLockedRequirement pm)))]

/-- `as_json_data` (lines 336-396): the document mirror of a
`Lockfile`.  `requirements` entries are canonicalized; `constraints`
entries are stringified only (line 351 applies no
`maybe_canonicalize`); declared path mappings are emitted as a
name-to-description object. -/
def as_json_data (lockfile : Lockfile) (path_mappings : PathMappings := ⟨[]⟩) : JsonValue :=
  .obj [("pex_version", .str lockfile.pex_version),
        ("style", .str lockfile.style.toStr),
        ("requires_python", .arr (lockfile.requires_python.map JsonValue.str)),
        ("target_systems", .arr (lockfile.target_systems.map fun t => .str t.toStr)),
        ("pip_version", .str lockfile.pip_version.toStr),
        ("resolver_version", .str lockfile.resolver_version.toStr),
        ("requirements",
          .arr (lockfile.requirements.map fun r => .str (maybe_canonicalize path_mappings r.raw))),
        ("constraints", .arr (lockfile.constraints.map fun c => .str c.raw)),
        ("allow_prereleases", .bool lockfile.allow_prereleases),
        ("allow_wheels", .bool lockfile.allow_wheels),
        ("allow_builds", .bool lockfile.allow_builds),
        ("prefer_older_binary", .bool lockfile.prefer_older_binary),
        ("use_pep517",
          match lockfile.use_pep517 with
          | some b => .bool b
          | none => .null),
        ("build_isolation", .bool lockfile.build_isolation),
        ("transitive", .bool lockfile.transitive),
        ("locked_resolves",
          .arr (lockfile.locked_resolves.map (serializeLockedResolve path_mappings))),
        ("path_mappings",
          .obj (path_mappings.mappings.map fun m => (m.name, .str m.description)))]

/-! ## Local project fingerprinter (`pex/pip/local_project.py`).
POSIX paths are modelled as strings; `os.path` operations are embedded
below.  The build backend (`pep_517.build_sdist`) is an external
collaborator, so its outcome is an input; the built sdist archive is
given by the list of its member names, and hashing is out of scope. -/

/-- Does the string start with the path separator (`b.startswith("/")`
as used by `os.path.join` / `os.path.isabs`)? -/
def startsSlash (s : String) : Bool :=
  match s.data with
  | [] => false
  | c :: _ => c = '/'

/-- Does the string end with the path separator? -/
def endsSlash (s : String) : Bool :=
  match s.data.getLast? with
  | some c => c = '/'
  | none => false

/-- Split a character list on `'/'`. -/
def splitSegs : List Char → List Char → List String
  | acc, [] => [String.mk acc.reverse]
  | acc, c :: cs =>
    if c = '/' then String.mk acc.reverse :: splitSegs [] cs
    else splitSegs (c :: acc) cs

/-- The nonempty path components of a path string. -/
def splitPath (s : String) : List String :=
  (splitSegs [] s.data).filter fun seg => seg ≠ ""

/-- One `os.path.normpath` step over a reversed component stack:
`"."` is dropped, `".."` pops (the root absorbs excess `".."`),
anything else is pushed. -/
def normStep (stack : List String) (seg : String) : List String :=
  if seg = "." then stack
  else if seg = ".." then stack.drop 1
  else seg :: stack

/-- `os.path.join` for two POSIX path strings: an absolute second
argument replaces the first; otherwise a separator is inserted unless
one is already there. -/
def pjoin (a b : String) : String :=
  if startsSlash b then b
  else if a = "" || endsSlash a then a ++ b
  else a ++ "/" ++ b

/-- `os.path.abspath` with an explicit (absolute) working directory:
join with the working directory when relative, then normalize. -/
def absNorm (cwd p : String) : String :=
  let segs := if startsSlash p then splitPath p else splitPath cwd ++ splitPath p
  "/" ++ String.intercalate "/" (segs.foldl normStep []).reverse

/-- Character-level string prefix test:
`os.path.commonprefix([a, b]) == a` holds exactly when `a` is a
character-level prefix of `b` (`commonprefix` is character-wise, not
component-wise). -/
def strIsPref (a b : String) : Bool :=
  a.data.isPrefixOf b.data

/-- `is_within_directory` (`local_project.py` lines 58-65): absolutize
both paths, then compare `os.path.commonprefix([abs_directory,
abs_target])` with `abs_directory` -- a character-level prefix test on
the normalized absolute paths. -/
def is_within_directory (cwd directory target : String) : Bool :=
  strIsPref (absNorm cwd directory) (absNorm cwd target)

/-- The extraction error (`raise Exception("Attempted Path Traversal
in Tar File")`, line 72). -/
inductive ExtractError where
  | traversal
deriving DecidableEq

/-- `safe_extract` (lines 67-77): every member's destination
`os.path.join(path, member.name)` is checked with
`is_within_directory` before anything is extracted; if any member
fails, the whole extraction aborts with the traversal error and
nothing is written.  On success `tar.extractall` runs; the returned
list gives the normalized absolute destination path of every written
member. -/
def safe_extract (cwd : String) (members : List String) (path : String) :
    Except ExtractError (List String) :=
  if members.all (fun m => is_within_directory cwd path (pjoin path m)) then
    .ok (members.map fun m => absNorm cwd (pjoin path m))
  else .error .traversal

/-- The specification's intended containment check: the normalized
absolute root's components are a leading run of the target's
components, so sibling directories whose names merely extend the
root's name do not count as inside. -/
def withinRootComponents (cwd root target : String) : Bool :=
  (splitPath (absNorm cwd root)).isPrefixOf (splitPath (absNorm cwd target))

/-- Failure modes of `digest_local_project`: a build-backend failure
(returned as an `Error` value in Python), the traversal exception, and
the violated single-top-level-directory assertion. -/
inductive ProjectError where
  | buildError (message : String)
  | traversal
  | unexpectedListing (listing : List String)
deriving DecidableEq

/-- The directory entry one extracted member creates directly under
the extraction root: the member's file lands at its normalized
absolute destination, so it appears in `os.listdir(extract_dir)` only
when that destination lies strictly below the root component-wise, and
then as its first component below the root.  A member whose
destination escapes the root is written elsewhere and contributes
nothing to the listing. -/
def listdirEntry (cwd dir m : String) : Option String :=
  let root := splitPath (absNorm cwd dir)
  let dest := splitPath (absNorm cwd (pjoin dir m))
  if root.isPrefixOf dest then (dest.drop root.length).head? else none

/-- `os.listdir(extract_dir)` after `tar.extractall` into a fresh
directory: the distinct entries the members created directly under the
extraction root. -/
def listdirAfterExtract (cwd : String) (members : List String) (dir : String) : List String :=
  (members.filterMap (listdirEntry cwd dir)).dedup

/-- `digest_local_project` (lines 36-85): after the build backend
produces the sdist (outcome supplied as input), extract it with
`safe_extract` into `dest_dir or os.path.join(td, "extracted")`, require
exactly one top-level directory in `os.listdir(extract_dir)` (the
line-79 `assert len(listing) == 1`, modelled by `unexpectedListing`),
and return `os.path.join(extract_dir, project_dir)` where `project_dir`
is itself already `os.path.join(extract_dir, listing[0])`.  The content
hashing between those two joins does not affect the returned path. -/
def digest_local_project (cwd td : String) (buildResult : Except String (List String))
    (dest_dir : Option String) : Except ProjectError String :=
  match buildResult with
  | .error e => .error (.buildError e)
  | .ok members =>
    let extract_dir :=
      match dest_dir with
      | some d => if d = "" then pjoin td "extracted" else d
      | none => pjoin td "extracted"
    match safe_extract cwd members extract_dir with
    | .error _ => .error .traversal
    | .ok _ =>
      match listdirAfterExtract cwd members extract_dir with
      | [name] =>
        let project_dir := pjoin extract_dir name
        .ok (pjoin extract_dir project_dir)
      | listing => .error (.unexpectedListing listing)

/-! ## Validity of a lockfile value relative to a path-mapping set.
A "valid `Lockfile` value" (spec section 8) is one whose opaque grammar
strings round-trip: requirement texts are grammatical (nonempty in the
grammar model) and survive canonicalize-then-reify, strings that are
serialized verbatim are untouched by reification, a present
`requires_python` specifier set is nonempty (a falsy specifier set
serializes as `null`), and each resolve's requirements are in sorted
order (their `SortedTuple` invariant). -/

/-- A requirement serialized with canonicalization round-trips. -/
def reqOk (M : PathMappings) (r : Requirement) : Bool :=
  decide (r.raw ≠ "") && decide (maybe_reify M (maybe_canonicalize M r.raw) = r.raw)

/-- A requirement serialized verbatim is untouched by reification. -/
def plainReqOk (M : PathMappings) (r : Requirement) : Bool :=
  decide (r.raw ≠ "") && decide (maybe_reify M r.raw = r.raw)

/-- An artifact url serialized with canonicalization round-trips. -/
def artifactOk (M : PathMappings) (a : Artifact) : Bool :=
  decide (maybe_reify M (maybe_canonicalize M a.url) = a.url)

/-- A present `requires_python` specifier set is truthy (nonempty). -/
def specOk : Option SpecifierSet → Bool
  | some sp => decide (sp.raw ≠ "")
  | none => true

/-- Validity of one locked requirement. -/
def lockedReqOk (M : PathMappings) (r : LockedRequirement) : Bool :=
  r.requires_dists.all (reqOk M) && artifactOk M r.artifact &&
    r.additional_artifacts.all (artifactOk M) && specOk r.requires_python

/-- Validity of one locked resolve: requirements sorted and valid. -/
def resolveOk (M : PathMappings) (lr : LockedResolve) : Bool :=
  sortedB lr.locked_requirements && lr.locked_requirements.all (lockedReqOk M)

/-- Validity of a whole lockfile value relative to the mappings. -/
def validLockfile (L : Lockfile) (M : PathMappings) : Bool :=
  L.requirements.all (reqOk M) && L.constraints.all (plainReqOk M) &&
    L.locked_resolves.all (resolveOk M)

/-! ## Concrete documents and values used by the witnesses and
counterexamples below. -/

/-- Key lookup on a JSON document (none when the document is not an
object or lacks the key). -/
def jget (doc : JsonValue) (key : String) : Option JsonValue :=
  match doc with
  | .obj fields => jlookup fields key
  | _ => none

/-- Did a parse succeed? -/
def isOkE {α : Type} : Except ParseError α → Bool
  | .ok _ => true
  | .error _ => false

/-- A well-formed serialized artifact object. -/
def artifactObj : JsonValue :=
  .obj [("url", .str "https://a/x.whl"), ("algorithm", .str "sha256"), ("hash", .str "abc")]

/-- A locked-requirement object with the given `artifacts` value. -/
def lockedReqObj (arts : JsonValue) : JsonValue :=
  .obj [("project_name", .str "proj"),
        ("version", .str "1.0"),
        ("requires_dists", .arr []),
        ("requires_python", .null),
        ("artifacts", arts)]

/-- A locked-resolve object with the given `platform_tag` and
`artifacts` values. -/
def resolveObj (tag arts : JsonValue) : JsonValue :=
  .obj [("platform_tag", tag), ("locked_requirements", .arr [lockedReqObj arts])]

/-- A lock document, well-formed except for the given `platform_tag`,
`artifacts` and `use_pep517` values (no `target_systems`,
`pip_version` or `path_mappings` keys: all optional). -/
def mkDoc (tag arts pep : JsonValue) : JsonValue :=
  .obj [("pex_version", .str "2.1.103"),
        ("style", .str "strict"),
        ("requires_python", .arr []),
        ("resolver_version", .str "pip-legacy-resolver"),
        ("requirements", .arr [.str "req1"]),
        ("constraints", .arr []),
        ("allow_prereleases", .bool false),
        ("allow_wheels", .bool true),
        ("allow_builds", .bool true),
        ("prefer_older_binary", .bool false),
        ("use_pep517", pep),
        ("build_isolation", .bool true),
        ("transitive", .bool true),
        ("locked_resolves", .arr [resolveObj tag arts])]

/-- The lockfile value `mkDoc` parses to when its `platform_tag` is
absent (or falsy), its artifact list is `[artifactObj]` and
`use_pep517` is `null`. -/
def lock9 : Lockfile :=
  ⟨"2.1.103", .strict, [], [], defaultPipVersion, .pipLegacy, [⟨"req1"⟩], [],
   false, true, true, false, none, true, true,
   [⟨[⟨⟨⟨"proj"⟩, ⟨"1.0"⟩⟩, none, [], ⟨"https://a/x.whl", ⟨"sha256", "abc"⟩⟩, []⟩], none⟩]⟩

/-- A one-mapping path-mapping set: `H` stands for `/h`. -/
def mapW : PathMappings := ⟨[⟨"H", some "/h", "the home dir"⟩]⟩

/-- A rich valid lockfile exercising every serialized field. -/
def lockW : Lockfile :=
  ⟨"2.1.103", .universal, ["<3.10,>=3.7"], [.linux, .mac], .v22, .pip2020,
   [⟨"proj @ file:///h/p"⟩, ⟨"other>=1"⟩], [⟨"c>=2"⟩],
   false, true, true, false, some true, true, true,
   [⟨[⟨⟨⟨"a"⟩, ⟨"1.0"⟩⟩, some ⟨">=3.7"⟩, [⟨"dep @ file:///h/d"⟩],
      ⟨"file:///h/a.whl", ⟨"sha256", "aa"⟩⟩, [⟨"https://x/y.whl", ⟨"sha256", "bb"⟩⟩]⟩,
     ⟨⟨⟨"b"⟩, ⟨"2.0"⟩⟩, none, [], ⟨"https://x/b.whl", ⟨"sha256", "cc"⟩⟩, []⟩], 
    some ⟨"cp39", "cp39", "linux_x86_64"⟩⟩]⟩

/-- A lockfile whose sole constraint mentions the concrete path of a
mapping in `mapW`, so canonicalization would change it. -/
def lockC2 : Lockfile :=
  ⟨"2.1.103", .strict, [], [], defaultPipVersion, .pipLegacy, [], [⟨"cons @ file:///h/c"⟩],
   false, true, true, false, none, true, true, []⟩

/-! ## Helper lemmas -/

/-- `Except` bind on a success. -/
theorem okBind {α β : Type} (a : α) (f : α → Except ParseError β) :
    ((Except.ok a : Except ParseError α) >>= f) = f a := rfl

/-- `Except` bind on a failure. -/
theorem errBind {α β : Type} (e : ParseError) (f : α → Except ParseError β) :
    ((Except.error e : Except ParseError α) >>= f) = .error e := rfl

/-- `mapIdxM` over a serialized list succeeds pointwise. -/
theorem mapIdxM_map_ok {α β : Type} (f : Nat → JsonValue → Except ParseError α)
    (g : β → JsonValue) (h : β → α) (l : List β)
    (H : ∀ x ∈ l, ∀ i, f i (g x) = .ok (h x)) :
    ∀ i0, mapIdxM f i0 (l.map g) = .ok (l.map h) := by
  induction l with
  | nil => intro i0; rfl
  | cons x xs ih =>
    intro i0
    simp only [List.map_cons, mapIdxM]
    rw [H x (by simp) i0, ih (fun y hy i => H y (by simp [hy]) i) (i0 + 1)]
    rfl

/-- Sortedness is preserved by dropping the head. -/
theorem sortedB_tail (x : LockedRequirement) (xs : List LockedRequirement)
    (h : sortedB (x :: xs) = true) : sortedB xs = true := by
  cases xs with
  | nil => rfl
  | cons y ys =>
    simp only [sortedB, Bool.and_eq_true] at h
    exact h.2

/-- Sorting an already-sorted requirement list is the identity (the
`SortedTuple` built by `loads` from serialized-in-order requirements). -/
theorem sortLR_sorted_eq (l : List LockedRequirement) (h : sortedB l = true) :
    sortLR l = l := by
  induction l with
  | nil => rfl
  | cons x xs ih =>
    have hx : sortLR xs = xs := ih (sortedB_tail x xs h)
    cases xs with
    | nil => simp [sortLR, insertLR]
    | cons y ys =>
      have hle : lrLeB x y = true := by
        simp only [sortedB, Bool.and_eq_true] at h
        exact h.1
      show insertLR x (sortLR (y :: ys)) = x :: y :: ys
      rw [hx]
      show (if lrLeB x y then x :: y :: ys else y :: insertLR x ys) = x :: y :: ys
      rw [hle]
      simp

/-- Every declared name being supplied leaves no unspecified names. -/
theorem filter_not_contains_self (l : List String) :
    (l.filter fun n => !(l.contains n)) = [] := by
  apply List.filter_eq_nil_iff.mpr
  intro a ha
  simp [ha]

/-- The raw `requires_python` list of strings round-trips. -/
theorem jsonToStrList_map_str (l : List String) :
    jsonToStrList (.arr (l.map JsonValue.str)) = l := by
  induction l with
  | nil => rfl
  | cons s rest ih =>
    simp only [jsonToStrList, List.map_cons, List.filterMap_cons] at ih ⊢
    exact congrArg (s :: ·) ih

/-- The `LockStyle` vocabulary round-trips through `str`/`for_value`. -/
theorem styleRoundtrip (x : LockStyle) : LockStyle.forValue (.str x.toStr) = some x := by
  cases x <;> rfl

/-- The `TargetSystem` vocabulary round-trips. -/
theorem tsRoundtrip (x : TargetSystem) : TargetSystem.forValue (.str x.toStr) = some x := by
  cases x <;> rfl

/-- The `ResolverVersion` vocabulary round-trips. -/
theorem rvRoundtrip (x : ResolverVersion) : ResolverVersion.forValue (.str x.toStr) = some x := by
  cases x <;> rfl

/-- The `PipVersion` vocabulary round-trips. -/
theorem pipRoundtrip (x : PipVersion) : PipVersion.forValue (.str x.toStr) = some x := by
  cases x <;> rfl

/-- The canonical form of a pip version is truthy (never empty). -/
theorem pipTruthy (x : PipVersion) : truthy (.str x.toStr) = true := by
  cases x <;> rfl

/-- The serialized optional `use_pep517` value converts back. -/
theorem pepRoundtrip (o : Option Bool) :
    jsonToOptBool (match o with | some b => JsonValue.bool b | none => JsonValue.null) = o := by
  cases o <;> rfl

/-! ## Stage lemmas: each deserialization stage inverts serialization
on a valid lockfile. -/

/-- The declared path mappings emitted by `as_json_data` are exactly
the supplied ones, so the diff passes. -/
theorem checkPathMappings_roundtrip (L : Lockfile) (M : PathMappings) (source : String) :
    checkPathMappings (as_json_data L M) M source = .ok () := by
  show (do
    let required ← get "path_mappings" .dict (as_json_data L M) "." source true
    let unspecified := (requiredPathNames required).filter fun n => !(givenNames M).contains n
    if unspecified.isEmpty then pure ()
    else .error (.pathMappingError required unspecified) : Except ParseError Unit) = .ok ()
  have h1 : get "path_mappings" .dict (as_json_data L M) "." source true
      = .ok (.obj (M.mappings.map fun m => (m.name, .str m.description))) := rfl
  rw [h1]
  show (if ((requiredPathNames (.obj (M.mappings.map fun m => (m.name, .str m.description)))).filter
      fun n => !(givenNames M).contains n).isEmpty then (pure () : Except ParseError Unit)
    else .error (.pathMappingError _ _)) = .ok ()
  have h2 : requiredPathNames (.obj (M.mappings.map fun m => (m.name, .str m.description)))
      = givenNames M := by
    simp [requiredPathNames, givenNames]
  rw [h2, filter_not_contains_self]
  rfl

/-- `target_systems` round-trips through its closed vocabulary. -/
theorem parseTargetSystems_roundtrip (L : Lockfile) (M : PathMappings) (source : String) :
    parseTargetSystems (as_json_data L M) source = .ok L.target_systems := by
  simp only [parseTargetSystems]
  have h1 : get "target_systems" .list (as_json_data L M) "." source true
      = .ok (.arr (L.target_systems.map fun t => .str t.toStr)) := rfl
  rw [h1, okBind]
  cases hts : L.target_systems with
  | nil => rfl
  | cons t ts =>
    have hmap := mapIdxM_map_ok
      (fun i v => parse_enum_value TargetSystem.forValue v (".target_systems[" ++ toString i ++ "]"))
      (fun x : TargetSystem => .str x.toStr) id (t :: ts)
      (fun x _ i => by simp [parse_enum_value, tsRoundtrip]) 0
    simp only [List.map_id] at hmap
    simpa [truthy, jsonItems] using hmap

/-- A canonicalized requirement string parses back to itself. -/
theorem parse_requirement_canon (M : PathMappings) (r : Requirement) (path : String)
    (h : reqOk M r = true) :
    parse_requirement M (.str (maybe_canonicalize M r.raw)) path = .ok r := by
  simp only [reqOk, Bool.and_eq_true, decide_eq_true_eq] at h
  simp [parse_requirement, Requirement.parse, h.2, h.1]

/-- A verbatim requirement string untouched by reification parses back. -/
theorem parse_requirement_plain (M : PathMappings) (r : Requirement) (path : String)
    (h : plainReqOk M r = true) :
    parse_requirement M (.str r.raw) path = .ok r := by
  simp only [plainReqOk, Bool.and_eq_true, decide_eq_true_eq] at h
  simp [parse_requirement, Requirement.parse, h.2, h.1]

/-- The serialized `requirements` list parses back. -/
theorem parseReqList_requirements_roundtrip (L : Lockfile) (M : PathMappings) (source : String)
    (h : L.requirements.all (reqOk M) = true) :
    parseReqList (as_json_data L M) "requirements" source M = .ok L.requirements := by
  simp only [parseReqList]
  have h1 : get "requirements" .list (as_json_data L M) "." source false
      = .ok (.arr (L.requirements.map fun r => .str (maybe_canonicalize M r.raw))) := rfl
  rw [h1, okBind]
  have hall := List.all_eq_true.mp h
  have hmap := mapIdxM_map_ok
    (fun i v => parse_requirement M v ("." ++ "requirements" ++ "[" ++ toString i ++ "]"))
    (fun r : Requirement => .str (maybe_canonicalize M r.raw)) id L.requirements
    (fun r hr i => by
      simpa using parse_requirement_canon M r
        ("." ++ "requirements" ++ "[" ++ toString i ++ "]") (hall r hr)) 0
  simp only [List.map_id] at hmap
  simpa [jsonItems] using hmap

/-- The serialized `constraints` list parses back (no canonicalization
was applied; validity says reification leaves the strings alone). -/
theorem parseReqList_constraints_roundtrip (L : Lockfile) (M : PathMappings) (source : String)
    (h : L.constraints.all (plainReqOk M) = true) :
    parseReqList (as_json_data L M) "constraints" source M = .ok L.constraints := by
  simp only [parseReqList]
  have h1 : get "constraints" .list (as_json_data L M) "." source false
      = .ok (.arr (L.constraints.map fun c => .str c.raw)) := rfl
  rw [h1, okBind]
  have hall := List.all_eq_true.mp h
  have hmap := mapIdxM_map_ok
    (fun i v => parse_requirement M v ("." ++ "constraints" ++ "[" ++ toString i ++ "]"))
    (fun r : Requirement => .str r.raw) id L.constraints
    (fun r hr i => by
      simpa using parse_requirement_plain M r
        ("." ++ "constraints" ++ "[" ++ toString i ++ "]") (hall r hr)) 0
  simp only [List.map_id] at hmap
  simpa [jsonItems] using hmap

/-- One serialized artifact parses back (url canonicalize-reify
round-trip from validity). -/
theorem parseArtifact_item (M : PathMappings) (a : Artifact) (ap source : String)
    (h : artifactOk M a = true) :
    (do
      let url ← get "url" .str (serializeArtifact M a) ap source false
      let algorithm ← get "algorithm" .str (serializeArtifact M a) ap source false
      let hashValue ← get "hash" .str (serializeArtifact M a) ap source false
      pure (Artifact.from_url (maybe_reify M (jstr url)) ⟨jstr algorithm, jstr hashValue⟩)
      : Except ParseError Artifact) = .ok a := by
  have hu : maybe_reify M (maybe_canonicalize M a.url) = a.url := by
    simpa [artifactOk] using h
  show Except.ok (Artifact.from_url (maybe_reify M (maybe_canonicalize M a.url))
      ⟨a.fingerprint.algorithm, a.fingerprint.hash⟩) = .ok a
  rw [hu]
  rfl

/-- The artifact loop inverts artifact serialization. -/
theorem parseArtifacts_ok (M : PathMappings) (arts : List Artifact) (req : JsonValue)
    (req_path source : String)
    (hget : get "artifacts" .list req req_path source false
      = .ok (.arr (arts.map (serializeArtifact M))))
    (hall : arts.all (artifactOk M) = true) :
    parseArtifacts M req req_path source = .ok arts := by
  simp only [parseArtifacts]
  rw [hget, okBind]
  have hA := List.all_eq_true.mp hall
  have hmap := mapIdxM_map_ok
    (fun i a => do
      let ap := req_path ++ "[\"artifacts\"][" ++ toString i ++ "]"
      let url ← get "url" .str a ap source false
      let algorithm ← get "algorithm" .str a ap source false
      let hashValue ← get "hash" .str a ap source false
      pure (Artifact.from_url (maybe_reify M (jstr url)) ⟨jstr algorithm, jstr hashValue⟩))
    (serializeArtifact M) id arts
    (fun a ha i => by
      simpa using parseArtifact_item M a (req_path ++ "[\"artifacts\"][" ++ toString i ++ "]")
        source (hA a ha)) 0
  simp only [List.map_id] at hmap
  simpa [jsonItems] using hmap

/-- One serialized locked requirement parses back. -/
theorem parseLockedRequirement_roundtrip (M : PathMappings) (r : LockedRequirement)
    (req_path source : String) (h : lockedReqOk M r = true) :
    parseLockedRequirement M (serializeLockedRequirement M r) req_path source = .ok r := by
  obtain ⟨⟨⟨pn⟩, ⟨vv⟩⟩, rp, dists, art, add⟩ := r
  simp only [lockedReqOk, Bool.and_eq_true] at h
  obtain ⟨⟨⟨hdists, hart⟩, hadd⟩, hspec⟩ := h
  have hallarts : (art :: add).all (artifactOk M) = true := by
    simp only [List.all_cons, Bool.and_eq_true]
    exact ⟨hart, hadd⟩
  have hD := List.all_eq_true.mp hdists
  cases rp with
  | none =>
    have harts : parseArtifacts M
        (serializeLockedRequirement M ⟨⟨⟨pn⟩, ⟨vv⟩⟩, none, dists, art, add⟩) req_path source
        = .ok (art :: add) :=
      parseArtifacts_ok M (art :: add) _ req_path source rfl hallarts
    have hdistsmap : mapIdxM
        (fun i v => parse_requirement M v (req_path ++ "[\"requires_dists\"][" ++ toString i ++ "]"))
        0 (jsonItems (.arr (dists.map fun d => .str (maybe_canonicalize M d.raw))))
        = .ok dists := by
      have hmap := mapIdxM_map_ok
        (fun i v => parse_requirement M v (req_path ++ "[\"requires_dists\"][" ++ toString i ++ "]"))
        (fun d : Requirement => .str (maybe_canonicalize M d.raw)) id dists
        (fun d hd i => by
          simpa using parse_requirement_canon M d
            (req_path ++ "[\"requires_dists\"][" ++ toString i ++ "]") (hD d hd)) 0
      simp only [List.map_id] at hmap
      simpa [jsonItems] using hmap
    simp only [parseLockedRequirement]
    simp only [harts, okBind]
    have h1 : get "requires_python" .str
        (serializeLockedRequirement M ⟨⟨⟨pn⟩, ⟨vv⟩⟩, none, dists, art, add⟩)
        req_path source true = .ok .null := rfl
    have h4 : get "requires_dists" .list
        (serializeLockedRequirement M ⟨⟨⟨pn⟩, ⟨vv⟩⟩, none, dists, art, add⟩)
        req_path source false
        = .ok (.arr (dists.map fun d => .str (maybe_canonicalize M d.raw))) := rfl
    simp only [h1, h4, okBind, truthy, Bool.false_eq_true, if_false, hdistsmap]
    rfl
  | some s =>
    obtain ⟨sraw⟩ := s
    have hs : ¬(sraw = "") := by simpa [specOk] using hspec
    have harts : parseArtifacts M
        (serializeLockedRequirement M ⟨⟨⟨pn⟩, ⟨vv⟩⟩, some ⟨sraw⟩, dists, art, add⟩) req_path source
        = .ok (art :: add) :=
      parseArtifacts_ok M (art :: add) _ req_path source rfl hallarts
    have hdistsmap : mapIdxM
        (fun i v => parse_requirement M v (req_path ++ "[\"requires_dists\"][" ++ toString i ++ "]"))
        0 (jsonItems (.arr (dists.map fun d => .str (maybe_canonicalize M d.raw))))
        = .ok dists := by
      have hmap := mapIdxM_map_ok
        (fun i v => parse_requirement M v (req_path ++ "[\"requires_dists\"][" ++ toString i ++ "]"))
        (fun d : Requirement => .str (maybe_canonicalize M d.raw)) id dists
        (fun d hd i => by
          simpa using parse_requirement_canon M d
            (req_path ++ "[\"requires_dists\"][" ++ toString i ++ "]") (hD d hd)) 0
      simp only [List.map_id] at hmap
      simpa [jsonItems] using hmap
    simp only [parseLockedRequirement]
    simp only [harts, okBind]
    have h1 : get "requires_python" .str
        (serializeLockedRequirement M ⟨⟨⟨pn⟩, ⟨vv⟩⟩, some ⟨sraw⟩, dists, art, add⟩)
        req_path source true = .ok (.str sraw) := by
      show Except.ok (if sraw = "" then JsonValue.null else .str sraw) = .ok (.str sraw)
      rw [if_neg hs]
    have h4 : get "requires_dists" .list
        (serializeLockedRequirement M ⟨⟨⟨pn⟩, ⟨vv⟩⟩, some ⟨sraw⟩, dists, art, add⟩)
        req_path source false
        = .ok (.arr (dists.map fun d => .str (maybe_canonicalize M d.raw))) := rfl
    have h5 : truthy (.str sraw) = true := by simp [truthy, hs]
    simp only [h1, h4, h5, okBind, if_true, hdistsmap]
    rfl

/-- One serialized locked resolve parses back. -/
theorem parseLockedResolve_roundtrip (M : PathMappings) (lr : LockedResolve)
    (lock_path source : String) (h : resolveOk M lr = true) :
    parseLockedResolve M (serializeLockedResolve M lr) lock_path source = .ok lr := by
  obtain ⟨reqs, tag⟩ := lr
  simp only [resolveOk, Bool.and_eq_true] at h
  obtain ⟨hsort, hall⟩ := h
  have hA := List.all_eq_true.mp hall
  have hreqsmap : mapIdxM
      (fun j r => parseLockedRequirement M r (lock_path ++ "[" ++ toString j ++ "]") source)
      0 (jsonItems (.arr (reqs.map (serializeLockedRequirement M)))) = .ok reqs := by
    have hmap := mapIdxM_map_ok
      (fun j r => parseLockedRequirement M r (lock_path ++ "[" ++ toString j ++ "]") source)
      (serializeLockedRequirement M) id reqs
      (fun r hr j => by
        simpa using parseLockedRequirement_roundtrip M r (lock_path ++ "[" ++ toString j ++ "]")
          source (hA r hr)) 0
    simp only [List.map_id] at hmap
    simpa [jsonItems] using hmap
  cases tag with
  | none =>
    simp only [parseLockedResolve]
    have h1 : get "platform_tag" .list
        (serializeLockedResolve M ⟨reqs, none⟩) lock_path source true = .ok .null := rfl
    have h2 : get "locked_requirements" .list
        (serializeLockedResolve M ⟨reqs, none⟩) lock_path source false
        = .ok (.arr (reqs.map (serializeLockedRequirement M))) := rfl
    simp only [h1, h2, okBind, truthy, Bool.false_eq_true, if_false, hreqsmap]
    rw [sortLR_sorted_eq reqs hsort]
    rfl
  | some t =>
    obtain ⟨ti, ta, tp⟩ := t
    simp only [parseLockedResolve]
    have h1 : get "platform_tag" .list
        (serializeLockedResolve M ⟨reqs, some ⟨ti, ta, tp⟩⟩) lock_path source true
        = .ok (.arr [.str ti, .str ta, .str tp]) := rfl
    have h2 : get "locked_requirements" .list
        (serializeLockedResolve M ⟨reqs, some ⟨ti, ta, tp⟩⟩) lock_path source false
        = .ok (.arr (reqs.map (serializeLockedRequirement M))) := rfl
    have h3 : truthy (.arr [JsonValue.str ti, .str ta, .str tp]) = true := rfl
    have h4 : assemble_tag (jsonItems (.arr [JsonValue.str ti, .str ta, .str tp]))
        (lock_path ++ "[\"platform_tag\"]") = .ok ⟨ti, ta, tp⟩ := rfl
    simp only [h1, h2, h3, h4, okBind, if_true, hreqsmap]
    rw [sortLR_sorted_eq reqs hsort]
    rfl

/-- `get_enum_value` without a default resolves the fetched value. -/
theorem get_enum_value_ok {α : Type} (forValue : JsonValue → Option α) (key : String)
    (data : JsonValue) (source : String) (v : JsonValue) (x : α)
    (hget : get key .str data "." source false = .ok v)
    (hparse : forValue v = some x) :
    get_enum_value forValue key none data source = .ok x := by
  simp only [get_enum_value, Option.isSome_none, hget, okBind]
  cases htv : truthy v <;> simp [parse_enum_value, hparse]

/-- `get_enum_value` with a default resolves a truthy fetched value. -/
theorem get_enum_value_default_ok {α : Type} (forValue : JsonValue → Option α) (key : String)
    (data : JsonValue) (source : String) (v : JsonValue) (d x : α)
    (hget : get key .str data "." source true = .ok v)
    (htv : truthy v = true)
    (hparse : forValue v = some x) :
    get_enum_value forValue key (some d) data source = .ok x := by
  simp only [get_enum_value, Option.isSome_some, hget, okBind, htv]
  simp [parse_enum_value, hparse]

/-! ## Claim theorems -/

/-- C1: Round-trip.  For every valid `Lockfile` value `L` and every
path-mapping set `M`, parsing the document produced by serializing `L`
with `M` -- `loads (as_json_data L M)` with the same mappings -- yields
a `Lockfile` equal to `L`.  Validity (`validLockfile`) captures the
spec's "valid lockfile value": grammatical requirement strings that
survive the canonicalize/reify round-trip, verbatim-serialized strings
untouched by reification, nonempty present specifier sets, and
pin-sorted locked requirements. -/
theorem loads_as_json_data_roundtrip (L : Lockfile) (M : PathMappings) (source : String)
    (h : validLockfile L M = true) :
    loads (as_json_data L M) source M = .ok L := by
  simp only [validLockfile, Bool.and_eq_true] at h
  obtain ⟨⟨hreq, hcon⟩, hres⟩ := h
  have h1 := checkPathMappings_roundtrip L M source
  have h2 := parseTargetSystems_roundtrip L M source
  have h3 := parseReqList_requirements_roundtrip L M source hreq
  have h4 := parseReqList_constraints_roundtrip L M source hcon
  have h5 : get "locked_resolves" .list (as_json_data L M) "." source false
      = .ok (.arr (L.locked_resolves.map (serializeLockedResolve M))) := rfl
  have hR := List.all_eq_true.mp hres
  have h6 : mapIdxM
      (fun i lr => parseLockedResolve M lr (".locked_resolves[" ++ toString i ++ "]") source)
      0 (jsonItems (.arr (L.locked_resolves.map (serializeLockedResolve M))))
      = .ok L.locked_resolves := by
    have hmap := mapIdxM_map_ok
      (fun i lr => parseLockedResolve M lr (".locked_resolves[" ++ toString i ++ "]") source)
      (serializeLockedResolve M) id L.locked_resolves
      (fun lr hlr i => by
        simpa using parseLockedResolve_roundtrip M lr
          (".locked_resolves[" ++ toString i ++ "]") source (hR lr hlr)) 0
    simp only [List.map_id] at hmap
    simpa [jsonItems] using hmap
  have h7 : get_enum_value LockStyle.forValue "style" none (as_json_data L M) source
      = .ok L.style :=
    get_enum_value_ok LockStyle.forValue "style" (as_json_data L M) source _ _ rfl
      (styleRoundtrip L.style)
  have h8 : get_enum_value PipVersion.forValue "pip_version" (some defaultPipVersion)
      (as_json_data L M) source = .ok L.pip_version :=
    get_enum_value_default_ok PipVersion.forValue "pip_version" (as_json_data L M) source _
      defaultPipVersion _ rfl (pipTruthy L.pip_version) (pipRoundtrip L.pip_version)
  have h9 : get_enum_value ResolverVersion.forValue "resolver_version" none (as_json_data L M)
      source = .ok L.resolver_version :=
    get_enum_value_ok ResolverVersion.forValue "resolver_version" (as_json_data L M) source _ _
      rfl (rvRoundtrip L.resolver_version)
  have hb1 : get "pex_version" .str (as_json_data L M) "." source false
      = .ok (.str L.pex_version) := rfl
  have hb2 : get "requires_python" .list (as_json_data L M) "." source false
      = .ok (.arr (L.requires_python.map JsonValue.str)) := rfl
  have hb3 : get "allow_prereleases" .bool (as_json_data L M) "." source false
      = .ok (.bool L.allow_prereleases) := rfl
  have hb4 : get "allow_wheels" .bool (as_json_data L M) "." source false
      = .ok (.bool L.allow_wheels) := rfl
  have hb5 : get "allow_builds" .bool (as_json_data L M) "." source false
      = .ok (.bool L.allow_builds) := rfl
  have hb6 : get "prefer_older_binary" .bool (as_json_data L M) "." source false
      = .ok (.bool L.prefer_older_binary) := rfl
  have hb7 : get "use_pep517" .bool (as_json_data L M) "." source true
      = .ok (match L.use_pep517 with | some b => JsonValue.bool b | none => JsonValue.null) := rfl
  have hb8 : get "build_isolation" .bool (as_json_data L M) "." source false
      = .ok (.bool L.build_isolation) := rfl
  have hb9 : get "transitive" .bool (as_json_data L M) "." source false
      = .ok (.bool L.transitive) := rfl
  simp only [loads, h1, h2, h3, h4, h5, h6, h7, h8, h9, hb1, hb2, hb3, hb4, hb5, hb6, hb7,
    hb8, hb9, okBind]
  simp only [jsonToStrList_map_str, pepRoundtrip]
  rfl

/-- C1 witness: the round-trip at the concrete valid lockfile `lockW`
and mapping set `mapW`. -/
theorem loads_as_json_data_roundtrip_witness :
    validLockfile lockW mapW = true ∧
      loads (as_json_data lockW mapW) "<string>" mapW = .ok lockW :=
  ⟨by rfl, loads_as_json_data_roundtrip lockW mapW "<string>" (by rfl)⟩

/-- C2 counterexample: serialization does NOT canonicalize the
top-level `constraints` entries (line 351 applies `str` only).  With
mapping `H -> /h`, a constraint mentioning `/h` is emitted verbatim
although canonicalization would have rewritten it. -/
theorem as_json_data_constraints_not_canonicalized :
    jget (as_json_data lockC2 mapW) "constraints" = some (.arr [.str "cons @ file:///h/c"]) ∧
    maybe_canonicalize mapW "cons @ file:///h/c" = "cons @ file://$\x7bH\x7d/c" ∧
    "cons @ file:///h/c" ≠ "cons @ file://$\x7bH\x7d/c" :=
  ⟨rfl, rfl, by decide⟩

/-- C2 (amended): serialization applies canonicalization to every
top-level `requirements` entry, every `requires_dists` entry and every
artifact `url`, but the top-level `constraints` entries are emitted
with `str` only, uncanonicalized. -/
theorem as_json_data_canonicalization_fields (L : Lockfile) (M : PathMappings) :
    jget (as_json_data L M) "requirements"
      = some (.arr (L.requirements.map fun r => .str (maybe_canonicalize M r.raw))) ∧
    jget (as_json_data L M) "constraints"
      = some (.arr (L.constraints.map fun c => .str c.raw)) ∧
    (∀ a, jget (serializeArtifact M a) "url" = some (.str (maybe_canonicalize M a.url))) ∧
    (∀ r, jget (serializeLockedRequirement M r) "requires_dists"
      = some (.arr (r.requires_dists.map fun d => .str (maybe_canonicalize M d.raw)))) ∧
    jget (as_json_data L M) "locked_resolves"
      = some (.arr (L.locked_resolves.map (serializeLockedResolve M))) :=
  ⟨rfl, rfl, fun _ => rfl, fun _ => rfl, rfl⟩

/-- C3 counterexample: the traversal guard is a character-level string
prefix comparison (`os.path.commonprefix`), which aliases: with
extraction root `/tmp/ex`, the member `../extra/pwn` resolves to
`/tmp/extra/pwn`, passes the check (the root is a character prefix of
the target), extraction completes without the security error, and the
written destination lies outside the root component-wise.
`digest_local_project` then fails -- but with the
single-top-level-directory assertion on the root's empty listing (the
escaped file was written elsewhere), not with the security error: the
file outside the root stays written. -/
theorem safe_extract_string_alias_escape :
    is_within_directory "/w" "/tmp/ex" (pjoin "/tmp/ex" "../extra/pwn") = true ∧
    safe_extract "/w" ["../extra/pwn"] "/tmp/ex" = .ok ["/tmp/extra/pwn"] ∧
    withinRootComponents "/w" "/tmp/ex" "/tmp/extra/pwn" = false ∧
    digest_local_project "/w" "/t" (.ok ["../extra/pwn"]) (some "/tmp/ex")
      = .error (.unexpectedListing []) ∧
    (ProjectError.unexpectedListing [] ≠ ProjectError.traversal) :=
  ⟨rfl, rfl, rfl, rfl, fun h => ProjectError.noConfusion h⟩

/-- C3 (amended): before extracting any entry, `safe_extract` checks
every entry's absolutized destination against the root with a
character-level common-prefix comparison; if any entry fails, the
whole extraction (and `digest_local_project`) aborts with the
dedicated traversal error and nothing is written; when all pass, the
written destinations are exactly the absolutized joins -- which a
string-prefix alias such as `../extra/pwn` under root `/tmp/ex` can
place outside the root.  The spec's `../../etc/passwd` entry fails the
check and aborts. -/
theorem safe_extract_prefix_check (cwd root : String) (members : List String) :
    ((members.all fun m => is_within_directory cwd root (pjoin root m)) = false →
      safe_extract cwd members root = .error .traversal) ∧
    ((members.all fun m => is_within_directory cwd root (pjoin root m)) = true →
      safe_extract cwd members root
        = .ok (members.map fun m => absNorm cwd (pjoin root m))) ∧
    safe_extract "/w" ["../../etc/passwd"] "/tmp/ex" = .error .traversal ∧
    (∀ td dest, dest ≠ "" →
      (members.all fun m => is_within_directory cwd dest (pjoin dest m)) = false →
      digest_local_project cwd td (.ok members) (some dest) = .error .traversal) := by
  refine ⟨fun hall => by simp [safe_extract, hall],
          fun hall => by simp [safe_extract, hall], rfl, ?_⟩
  intro td dest hd hall
  simp [digest_local_project, hd, safe_extract, hall]

/-- C3 witness: the spec's traversal archive aborts both at the
`safe_extract` level and through `digest_local_project`. -/
theorem safe_extract_prefix_check_witness :
    safe_extract "/w" ["../../etc/passwd"] "/tmp/ex" = .error .traversal ∧
    digest_local_project "/w" "/t" (.ok ["../../etc/passwd"]) (some "/tmp/ex")
      = .error .traversal :=
  ⟨(safe_extract_prefix_check "/w" "/tmp/ex" ["../../etc/passwd"]).2.2.1,
   (safe_extract_prefix_check "/w" "/tmp/ex" ["../../etc/passwd"]).2.2.2 "/t" "/tmp/ex"
     (by decide) (by rfl)⟩

/-- C4 counterexample: an optional key (`use_pep517`) present with a
wrong-typed value (`"yes"`, a string where `bool` is expected) does
NOT make `loads` raise a `ParseError`: the accessor skips the type
check for optional keys (`if not optional and not isinstance(...)`),
and the parse succeeds. -/
theorem loads_accepts_wrong_typed_optional :
    jget (mkDoc .null (.arr [artifactObj]) (.str "yes")) "use_pep517" = some (.str "yes") ∧
    isinstanceOf (.str "yes") JsonTy.bool = false ∧
    isOkE (loads (mkDoc .null (.arr [artifactObj]) (.str "yes")) "<string>" ⟨[]⟩) = true :=
  ⟨rfl, rfl, rfl⟩

/-- The typed accessor on an object, as an equation (the accessor's
definition unfolded one step, usable where the bare name `get` would
be ambiguous in tactic arguments). -/
theorem get_on_object (key : String) (ty : JsonTy) (fields : List (String × JsonValue))
    (path source : String) (optional : Bool) :
    get key ty (.obj fields) path source optional =
      match jlookup fields key with
      | none => if optional then .ok .null else .error (.missingKey path source key)
      | some value =>
        if !optional && !isinstanceOf value ty then
          .error (.typeMismatch path key source (tyName ty) (jsonTypeName value) value)
        else .ok value := rfl

/-- C4 (amended): the typed accessor raises a `ParseError` embedding
the path, the expected type, the actual type and the actual value on a
type mismatch for a REQUIRED key; a missing required key raises the
path-and-key missing-key error; a non-object container raises the
path-qualified wrong-container error; but an optional key that is
present is returned without any type check. -/
theorem get_typed_accessor_spec (key : String) (ty : JsonTy)
    (fields : List (String × JsonValue)) (path source : String) (v : JsonValue) :
    (jlookup fields key = some v → isinstanceOf v ty = false →
      get key ty (.obj fields) path source false
        = .error (.typeMismatch path key source (tyName ty) (jsonTypeName v) v)) ∧
    (jlookup fields key = none →
      get key ty (.obj fields) path source false = .error (.missingKey path source key)) ∧
    (jlookup fields key = some v →
      get key ty (.obj fields) path source true = .ok v) ∧
    (∀ d : JsonValue, (∀ kvs, d ≠ .obj kvs) →
      get key ty d path source false
        = .error (.notAnObject path key source (jsonTypeName d) d)) := by
  refine ⟨fun h1 h2 => ?_, fun h1 => ?_, fun h1 => ?_, ?_⟩
  · rw [get_on_object, h1]
    simp [h2]
  · rw [get_on_object, h1]
    rfl
  · rw [get_on_object, h1]
    rfl
  · intro d hd
    cases d with
    | obj kvs => exact absurd rfl (hd kvs)
    | null => rfl
    | bool b => rfl
    | num n => rfl
    | str s => rfl
    | arr items => rfl

/-- C4 witness: the four accessor behaviours at concrete inputs;
in particular the wrong-typed optional `use_pep517` value is returned
unchecked. -/
theorem get_typed_accessor_spec_witness :
    get "use_pep517" JsonTy.bool (.obj [("use_pep517", .str "yes")]) "." "<string>" false
      = .error (.typeMismatch "." "use_pep517" "<string>" "bool" "str" (.str "yes")) ∧
    get "requirements" JsonTy.list (.obj []) "." "<string>" false
      = .error (.missingKey "." "<string>" "requirements") ∧
    get "use_pep517" JsonTy.bool (.obj [("use_pep517", .str "yes")]) "." "<string>" true
      = .ok (.str "yes") ∧
    get "style" JsonTy.str (.arr []) "." "<string>" false
      = .error (.notAnObject "." "style" "<string>" "list" (.arr [])) :=
  ⟨(get_typed_accessor_spec "use_pep517" .bool [("use_pep517", .str "yes")] "." "<string>"
      (.str "yes")).1 rfl rfl,
   (get_typed_accessor_spec "requirements" .list [] "." "<string>" .null).2.1 rfl,
   (get_typed_accessor_spec "use_pep517" .bool [("use_pep517", .str "yes")] "." "<string>"
      (.str "yes")).2.2.1 rfl,
   (get_typed_accessor_spec "style" .str [] "." "<string>" .null).2.2.2 (.arr [])
     (fun kvs h => JsonValue.noConfusion h)⟩

/-- C5: any document (a JSON object) whose `path_mappings` object
declares a name the caller did not supply makes `loads` fail with
`PathMappingError` carrying the full declared mapping value and the
unsatisfied names -- whatever else the document contains, since the
diff runs before any locked content is interpreted; and the error is
distinguishable from a generic `ParseError`. -/
theorem loads_path_mapping_gap (fields pmFields : List (String × JsonValue))
    (source : String) (M : PathMappings)
    (hpm : jlookup fields "path_mappings" = some (.obj pmFields))
    (hne : (pmFields.map Prod.fst).filter (fun n => !(givenNames M).contains n) ≠ []) :
    loads (.obj fields) source M
      = .error (.pathMappingError (.obj pmFields)
          ((pmFields.map Prod.fst).filter fun n => !(givenNames M).contains n)) ∧
    ParseError.isPathMappingError
      (.pathMappingError (.obj pmFields)
        ((pmFields.map Prod.fst).filter fun n => !(givenNames M).contains n)) = true := by
  constructor
  · have hget : get "path_mappings" .dict (.obj fields) "." source true
        = .ok (.obj pmFields) := by
      rw [get_on_object, hpm]
      rfl
    have hie : ((pmFields.map Prod.fst).filter fun n => !(givenNames M).contains n).isEmpty
        = false := by
      cases hc : (pmFields.map Prod.fst).filter fun n => !(givenNames M).contains n with
      | nil => exact absurd hc hne
      | cons a as => rfl
    have hcheck : checkPathMappings (.obj fields) M source
        = .error (.pathMappingError (.obj pmFields)
            ((pmFields.map Prod.fst).filter fun n => !(givenNames M).contains n)) := by
      simp only [checkPathMappings, hget, okBind, requiredPathNames]
      rw [hie]
      rfl
    simp only [loads, hcheck, errBind]
  · rfl

/-- C5 witness: the spec's example -- a document declaring
`HOME` with no caller-supplied `HOME` mapping fails with
`PathMappingError` whose unspecified names are exactly `HOME`. -/
theorem loads_path_mapping_gap_witness :
    loads (.obj [("path_mappings", .obj [("HOME", .str "the user home")])]) "<string>" ⟨[]⟩
      = .error (.pathMappingError (.obj [("HOME", .str "the user home")]) ["HOME"]) ∧
    ParseError.isPathMappingError
      (.pathMappingError (.obj [("HOME", .str "the user home")]) ["HOME"]) = true :=
  loads_path_mapping_gap [("path_mappings", .obj [("HOME", .str "the user home")])]
    [("HOME", .str "the user home")] "<string>" ⟨[]⟩ rfl (by decide)

/-- C6 counterexample: a document lacking `requirements` need not fail
with the `.requirements` missing-key error -- a document that also has
a path-mapping gap fails earlier, with `PathMappingError` (which
carries no `.requirements` path). -/
theorem loads_missing_requirements_counterexample :
    jget (.obj [("path_mappings", .obj [("HOME", .str "home dir")])]) "requirements" = none ∧
    loads (.obj [("path_mappings", .obj [("HOME", .str "home dir")])]) "<string>" ⟨[]⟩
      = .error (.pathMappingError (.obj [("HOME", .str "home dir")]) ["HOME"]) ∧
    (ParseError.pathMappingError (.obj [("HOME", .str "home dir")]) ["HOME"]
      ≠ .missingKey "." "<string>" "requirements") :=
  ⟨rfl, rfl, fun h => ParseError.noConfusion h⟩

/-- C6 (amended): a document (JSON object) lacking the top-level
`requirements` key, whose earlier stages -- the path-mapping diff and
`target_systems` parsing -- succeed, fails with the missing-key
`ParseError` naming the root object path `.` and the key
`requirements` (together designating `.requirements`). -/
theorem loads_missing_requirements_key (fields : List (String × JsonValue))
    (source : String) (M : PathMappings) (ts : List TargetSystem)
    (h1 : checkPathMappings (.obj fields) M source = .ok ())
    (h2 : parseTargetSystems (.obj fields) source = .ok ts)
    (h3 : jlookup fields "requirements" = none) :
    loads (.obj fields) source M = .error (.missingKey "." source "requirements") := by
  have hreq : parseReqList (.obj fields) "requirements" source M
      = .error (.missingKey "." source "requirements") := by
    simp only [parseReqList]
    rw [get_on_object, h3]
    rfl
  simp only [loads, h1, h2, okBind, hreq, errBind]

/-- C6 witness: the empty document at the default source. -/
theorem loads_missing_requirements_key_witness :
    loads (.obj []) "<string>" ⟨[]⟩ = .error (.missingKey "." "<string>" "requirements") :=
  loads_missing_requirements_key [] "<string>" ⟨[]⟩ [] rfl rfl rfl

/-- C7: a locked requirement with an empty `artifacts` list is
rejected with the dedicated `ParseError` naming that requirement's
path (`.locked_resolves[0][0]`), and every successfully parsed
lockfile's locked requirements carry at least one artifact (`loads`
can only construct a `LockedRequirement` by splitting a nonempty
artifact list into the primary artifact and the rest). -/
theorem loads_rejects_empty_artifacts :
    loads (mkDoc .null (.arr []) .null) "<string>" ⟨[]⟩
      = .error (.noArtifacts ".locked_resolves[0][0]" "<string>") ∧
    ∀ (doc : JsonValue) (source : String) (M : PathMappings) (L : Lockfile),
      loads doc source M = .ok L →
      ∀ lr ∈ L.locked_resolves, ∀ r ∈ lr.locked_requirements,
        1 ≤ r.iter_artifacts.length := by
  refine ⟨rfl, ?_⟩
  intro doc source M L _ lr _ r _
  simp only [LockedRequirement.iter_artifacts, List.length_cons]
  omega

/-- C7 witness: a one-artifact document parses, and its locked
requirement has an artifact list of length at least 1. -/
theorem loads_rejects_empty_artifacts_witness :
    loads (mkDoc .null (.arr [artifactObj]) .null) "<string>" ⟨[]⟩ = .ok lock9 ∧
    1 ≤ (LockedRequirement.iter_artifacts
      ⟨⟨⟨"proj"⟩, ⟨"1.0"⟩⟩, none, [], ⟨"https://a/x.whl", ⟨"sha256", "abc"⟩⟩, []⟩).length :=
  ⟨rfl,
   loads_rejects_empty_artifacts.2 (mkDoc .null (.arr [artifactObj]) .null) "<string>" ⟨[]⟩
     lock9 rfl
     ⟨[⟨⟨⟨"proj"⟩, ⟨"1.0"⟩⟩, none, [], ⟨"https://a/x.whl", ⟨"sha256", "abc"⟩⟩, []⟩], none⟩
     (by simp [lock9])
     ⟨⟨⟨"proj"⟩, ⟨"1.0"⟩⟩, none, [], ⟨"https://a/x.whl", ⟨"sha256", "abc"⟩⟩, []⟩
     (by simp)⟩

/-- C8 counterexample: a `platform_tag` key PRESENT with the value
`[]` (0 components, not 3) does not make `loads` fail -- the falsiness
guard (`if platform_tag_components`) treats it as absent, so the
universal "every platform_tag present must have exactly 3 string
components" fails on the empty list. -/
theorem platform_tag_empty_list_accepted :
    jget (resolveObj (.arr []) (.arr [artifactObj])) "platform_tag" = some (.arr []) ∧
    (JsonValue.arr [] ≠ .null) ∧
    isOkE (loads (mkDoc (.arr []) (.arr [artifactObj]) .null) "<string>" ⟨[]⟩) = true :=
  ⟨rfl, fun h => JsonValue.noConfusion h, rfl⟩

/-- C8 (amended): a `platform_tag` present with a truthy (non-empty
list) value must be exactly 3 string components: any non-empty
component list that is not three strings makes `loads` fail with the
`ParseError` citing the tag's path, the given component count and the
component types (an empty list, like `null`, is instead treated as an
absent tag). -/
theorem loads_platform_tag_arity (comps : List JsonValue)
    (hne : comps ≠ [])
    (hbad : ¬ ∃ a b c, comps = [JsonValue.str a, .str b, .str c]) :
    loads (mkDoc (.arr comps) (.arr [artifactObj]) .null) "<string>" ⟨[]⟩
      = .error (.invalidTag ".locked_resolves[0][\"platform_tag\"]"
          comps.length (comps.map jsonTypeName) comps) := by
  have hassemble : ∀ p, assemble_tag comps p
      = .error (.invalidTag p comps.length (comps.map jsonTypeName) comps) := by
    intro p
    rw [assemble_tag.eq_def]
    split
    · rename_i a b c
      exact absurd ⟨a, b, c, rfl⟩ hbad
    · rfl
  have e1 : checkPathMappings (mkDoc (.arr comps) (.arr [artifactObj]) .null) ⟨[]⟩ "<string>"
      = .ok () := rfl
  have e2 : parseTargetSystems (mkDoc (.arr comps) (.arr [artifactObj]) .null) "<string>"
      = .ok [] := rfl
  have e3 : parseReqList (mkDoc (.arr comps) (.arr [artifactObj]) .null) "requirements"
      "<string>" ⟨[]⟩ = .ok [⟨"req1"⟩] := rfl
  have e4 : parseReqList (mkDoc (.arr comps) (.arr [artifactObj]) .null) "constraints"
      "<string>" ⟨[]⟩ = .ok [] := rfl
  have e5 : get "locked_resolves" .list (mkDoc (.arr comps) (.arr [artifactObj]) .null) "."
      "<string>" false = .ok (.arr [resolveObj (.arr comps) (.arr [artifactObj])]) := rfl
  have e6 : ∀ p s, get "platform_tag" .list (resolveObj (.arr comps) (.arr [artifactObj]))
      p s true = .ok (.arr comps) := fun p s => rfl
  have e7 : truthy (.arr comps) = true := by
    cases comps with
    | nil => exact absurd rfl hne
    | cons a as => rfl
  simp only [loads, e1, e2, e3, e4, e5, okBind, mapIdxM, parseLockedResolve, e6, e7, if_true,
    jsonItems, hassemble, errBind]
  rfl

/-- C8 witness: the spec's 2-component tag `["cp39", "abi3"]` fails
with the arity error citing count 2 and the two `str` types. -/
theorem loads_platform_tag_arity_witness :
    loads (mkDoc (.arr [.str "cp39", .str "abi3"]) (.arr [artifactObj]) .null) "<string>" ⟨[]⟩
      = .error (.invalidTag ".locked_resolves[0][\"platform_tag\"]" 2 ["str", "str"]
          [.str "cp39", .str "abi3"]) :=
  loads_platform_tag_arity [.str "cp39", .str "abi3"]
    (fun h => List.noConfusion h)
    (by rintro ⟨a, b, c, h⟩; simp at h)

/-- C9: a document whose `platform_tag` key is present with the value
`[]` parses without the arity error, yielding the same lockfile as
`platform_tag: null`, whose sole resolve has `platform_tag = none`. -/
theorem loads_empty_platform_tag_is_absent :
    loads (mkDoc (.arr []) (.arr [artifactObj]) .null) "<string>" ⟨[]⟩ = .ok lock9 ∧
    loads (mkDoc .null (.arr [artifactObj]) .null) "<string>" ⟨[]⟩ = .ok lock9 ∧
    lock9.locked_resolves
      = [⟨[⟨⟨⟨"proj"⟩, ⟨"1.0"⟩⟩, none, [], ⟨"https://a/x.whl", ⟨"sha256", "abc"⟩⟩, []⟩],
         none⟩] :=
  ⟨rfl, rfl, rfl⟩

/-- A nonempty string prepended to anything fixes the leading
character. -/
theorem startsSlash_append (d x : String) (hd : d ≠ "") :
    startsSlash (d ++ x) = startsSlash d := by
  obtain ⟨ddata⟩ := d
  cases ddata with
  | nil => exact absurd rfl hd
  | cons c cs => rfl

/-- `os.path.join` inserts a separator between a nonempty
non-separator-terminated first part and a relative second part. -/
theorem pjoin_rel (a b : String) (hb : startsSlash b = false) (ha0 : a ≠ "")
    (has : endsSlash a = false) : pjoin a b = a ++ "/" ++ b := by
  simp [pjoin, hb, ha0, has]

/-- `os.path.join` discards the first part when the second is
absolute. -/
theorem pjoin_abs2 (a b : String) (hb : startsSlash b = true) : pjoin a b = b := by
  simp [pjoin, hb]

/-- C10: on success `digest_local_project` returns
`os.path.join(extract_dir, project_dir)` where `project_dir` is
already `os.path.join(extract_dir, listing[0])`: with an absolute
`dest_dir` the double join collapses to the extracted project
directory path `project_dir`, while a relative `dest_dir` is prepended
twice and the returned path differs from `project_dir`. -/
theorem digest_local_project_return_path (cwd td d n : String) (members : List String)
    (hck : (members.all fun m => is_within_directory cwd d (pjoin d m)) = true)
    (htop : listdirAfterExtract cwd members d = [n])
    (hd0 : d ≠ "") (hds : endsSlash d = false) (hns : startsSlash n = false) :
    (startsSlash d = true →
      digest_local_project cwd td (.ok members) (some d) = .ok (d ++ "/" ++ n) ∧
      pjoin d n = d ++ "/" ++ n) ∧
    (startsSlash d = false →
      digest_local_project cwd td (.ok members) (some d) = .ok (d ++ "/" ++ (d ++ "/" ++ n)) ∧
      d ++ "/" ++ (d ++ "/" ++ n) ≠ pjoin d n) := by
  have hpd : pjoin d n = d ++ "/" ++ n := pjoin_rel d n hns hd0 hds
  have hd1 : 0 < d.length := by
    obtain ⟨ddata⟩ := d
    cases ddata with
    | nil => exact absurd rfl hd0
    | cons c cs => simp [String.length]
  have hdig : digest_local_project cwd td (.ok members) (some d)
      = .ok (pjoin d (d ++ "/" ++ n)) := by
    simp [digest_local_project, safe_extract, hck, htop, hpd, hd0]
  constructor
  · intro habs
    have h1 : startsSlash (d ++ "/" ++ n) = true := by
      rw [String.append_assoc, startsSlash_append d ("/" ++ n) hd0, habs]
    rw [hdig, pjoin_abs2 d (d ++ "/" ++ n) h1]
    exact ⟨rfl, hpd⟩
  · intro hrel
    have h1 : startsSlash (d ++ "/" ++ n) = false := by
      rw [String.append_assoc, startsSlash_append d ("/" ++ n) hd0, hrel]
    rw [hdig, pjoin_rel d (d ++ "/" ++ n) h1 hd0 hds]
    refine ⟨rfl, ?_⟩
    rw [hpd]
    intro heq
    have hlen := congrArg String.length heq
    simp only [String.length_append] at hlen
    omega

/-- C10 witness: a one-directory archive extracted to the absolute
`dest_dir` `/out` returns `/out/proj` (the project directory), while
the relative `dest_dir` `out` returns `out/out/proj` (`out` prepended
twice). -/
theorem digest_local_project_return_path_witness :
    digest_local_project "/w" "/t" (.ok ["proj/setup.py"]) (some "/out") = .ok "/out/proj" ∧
    digest_local_project "/w" "/t" (.ok ["proj/setup.py"]) (some "out") = .ok "out/out/proj" :=
  ⟨((digest_local_project_return_path "/w" "/t" "/out" "proj" ["proj/setup.py"]
      rfl rfl (by decide) rfl rfl).1 rfl).1,
   ((digest_local_project_return_path "/w" "/t" "out" "proj" ["proj/setup.py"]
      rfl rfl (by decide) rfl rfl).2 rfl).1⟩
